import Mathlib

/-!
Shallow embedding of the event persistence and identity-rotation engine of
the offen server (package `relational`, file `accounts.go`, together with the
event identifier generator `NewEventID`).  Database state is a record of
lists of rows; GORM calls are modelled as explicit list operations;
fallible collaborators (randomness, key generation, encryption, the storage
driver) are modelled by an explicit environment that says which call fails.
-/

namespace Offen

/-- Row of the `accounts` table (struct `Account` in the relational package). -/
structure Account where
  accountID : String
  name : String
  publicKey : String
  encryptedSecretKey : String
  userSalt : String
  deriving Repr, DecidableEq

/-- Row of the `users` table (struct `User`): one user-secret association. -/
structure User where
  hashedUserID : String
  encryptedUserSecret : String
  deriving Repr, DecidableEq

/-- Row of the `events` table (struct `Event`); `hashedUserID` is nullable
(`*string` in Go), `none` denoting an anonymous event. -/
structure Event where
  eventID : String
  accountID : String
  hashedUserID : Option String
  payload : String
  deriving Repr, DecidableEq

/-- The relational database state: the three tables owned by the store. -/
structure DB where
  accounts : List Account
  users : List User
  events : List Event
  deriving Repr, DecidableEq

/-- Typed errors surfaced by the store (`persistence.ErrUnknownAccount`,
`persistence.ErrUnknownUser`, and generic wrapped failures built with
`fmt.Errorf`). -/
inductive Err where
  | unknownAccount
  | unknownUser
  | generic
  deriving Repr, DecidableEq

/-- Modelled from the spec: `PseudonymHasher` / `Account.HashUserID`, whose
definition is not part of the sources at hand.  A deterministic, account-salt
scoped derivation of a hashed user identifier from a plaintext identifier;
only determinism and dependence on both arguments matter to the claims. -/
def hashUserID (salt userID : String) : String :=
  "h(" ++ salt ++ "|" ++ userID ++ ")"

/-- `r.db.Find(&account, "account_id = ?", accountID)`: first account row
with the given id, if any (GORM reports `ErrRecordNotFound` on `none`). -/
def findAccount (db : DB) (accountID : String) : Option Account :=
  db.accounts.find? (fun a => a.accountID = accountID)

/-- `r.db.First(&user, "hashed_user_id = ?", h)`: first user row with the
given hashed identifier, if any. -/
def findUser (db : DB) (h : String) : Option User :=
  db.users.find? (fun u => u.hashedUserID = h)

/-- Modelled from the spec: `Account.WrapPublicKey`, absent from the sources
at hand — parses/wraps the stored PEM public key and can fail on a malformed
key.  Modelled as failing exactly on an empty stored key. -/
def wrapPublicKey (pem : String) : Option String :=
  if pem = "" then none else some pem

/-- One entry of `persistence.EventResult` as assembled by `GetAccount`. -/
structure EventResult where
  userID : Option String
  eventID : String
  payload : String
  accountID : String
  deriving Repr, DecidableEq

/-- `persistence.AccountResult`.  `publicKey` is a pointer-like field in Go
(`nil` when not populated), modelled as an `Option`; `events` and
`userSecrets` are the optional maps `EventsByAccountID` and
`SecretsByUserID`, modelled as association lists. -/
structure AccountResult where
  accountID : String
  publicKey : Option String := none
  encryptedSecretKey : String := ""
  events : Option (List (String × List EventResult)) := none
  userSecrets : Option (List (String × String)) := none
  deriving Repr, DecidableEq

/-- `eventResults[evt.AccountID] = append(eventResults[evt.AccountID], res)`:
append a value to the list bound to a key in an association-list map. -/
def appendGrouped (m : List (String × List EventResult)) (k : String)
    (v : EventResult) : List (String × List EventResult) :=
  match m with
  | [] => [(k, [v])]
  | (k', vs) :: rest =>
      if k' = k then (k', vs ++ [v]) :: rest
      else (k', vs) :: appendGrouped rest k v

/-- `userSecrets[*evt.HashedUserID] = evt.User.EncryptedUserSecret`:
insert-or-overwrite into an association-list map. -/
def putSecret (m : List (String × String)) (k v : String) :
    List (String × String) :=
  match m with
  | [] => [(k, v)]
  | (k', v') :: rest =>
      if k' = k then (k, v) :: rest
      else (k', v') :: putSecret rest k v

/-- Lexicographic order on character lists by code point: the order the
SQL backend applies to the ASCII `event_id` column. -/
def charListLt : List Char → List Char → Bool
  | _, [] => false
  | [], _ :: _ => true
  | a :: as, b :: bs =>
      if a.val < b.val then true
      else if b.val < a.val then false
      else charListLt as bs

/-- The SQL comparison `a < b` on the text `event_id` column. -/
def eventIdLt (a b : String) : Bool :=
  charListLt a.data b.data

/-- The rows loaded by `Preload("Events", ...)` in `GetAccount`: the
account's events, restricted by `event_id > eventsSince` when events are
requested with a non-empty cursor. -/
def loadedEvents (db : DB) (accountID : String) (events : Bool)
    (eventsSince : String) : List Event :=
  if events then
    if eventsSince ≠ "" then
      db.events.filter (fun e =>
        e.accountID = accountID ∧ eventIdLt eventsSince e.eventID = true)
    else
      db.events.filter (fun e => e.accountID = accountID)
  else []

/-- `evt.User.EncryptedUserSecret` after `Preload("Events.User")`: the
secret of the joined user row, or the zero value when the row is absent. -/
def joinedSecret (db : DB) (h : String) : String :=
  match findUser db h with
  | some u => u.encryptedUserSecret
  | none => ""

/-- The `persistence.EventResult` assembled from one preloaded event row. -/
def mkEventResult (evt : Event) : EventResult :=
  { userID := evt.hashedUserID
    eventID := evt.eventID
    payload := evt.payload
    accountID := evt.accountID }

/-- The loop of `GetAccount` over the preloaded events (front to back, as in
Go), building the `eventResults` and `userSecrets` maps. -/
def buildMapsGo (db : DB) (evts : List Event)
    (em : List (String × List EventResult)) (sm : List (String × String)) :
    List (String × List EventResult) × List (String × String) :=
  match evts with
  | [] => (em, sm)
  | evt :: rest =>
      buildMapsGo db rest (appendGrouped em evt.accountID (mkEventResult evt))
        (match evt.hashedUserID with
          | some h => putSecret sm h (joinedSecret db h)
          | none => sm)

/-- `relationalDatabase.GetAccount` (accounts.go lines 12–70). -/
def getAccount (db : DB) (accountID : String) (events : Bool)
    (eventsSince : String) : Except Err AccountResult :=
  match findAccount db accountID with
  | none => .error .unknownAccount
  | some account =>
      match wrapPublicKey account.publicKey with
      | none => .error .generic
      | some key =>
          let base : AccountResult := { accountID := account.accountID }
          let withKey :=
            if events then
              { base with encryptedSecretKey := account.encryptedSecretKey }
            else
              { base with publicKey := some key }
          let loaded := loadedEvents db accountID events eventsSince
          let (em, sm) := buildMapsGo db loaded [] []
          .ok { withKey with
                  events := if em = [] then none else some em
                  userSecrets := if sm = [] then none else some sm }

/-- Transaction-level actions observable on the storage driver, recorded in
call order: `Begin`, `Rollback`, `Commit`. -/
inductive Action where
  | begin
  | rollback
  | commit
  deriving Repr, DecidableEq

/-- Environment of `AssociateUserSecret`: which fallible collaborator call
fails during the run.  `uuidResult` is the outcome of `uuid.NewV4()`;
`eventSteps` supplies, for each migrated event in order, the outcome of
`newEventID()` and whether the `txn.Delete` / `txn.Create` statements of
that iteration fail (a missing entry means the `newEventID` call fails). -/
structure Env where
  lookupUserFails : Bool := false
  uuidResult : Option String := some "parked-uuid"
  createParkedUserFails : Bool := false
  deleteOldUserFails : Bool := false
  eventSteps : List (Option String × Bool × Bool) := []
  commitFails : Bool := false
  createNewUserFails : Bool := false

/-- The event-migration loop of `AssociateUserSecret` (accounts.go lines
110–126), acting on the transaction's view `tdb`: for each affected event,
generate a fresh `eventID`, delete the rows matching the old `eventID`,
and reinsert the event under the new id and the parked hash. -/
def migrateEvents (parkedHash : String) :
    List Event → List (Option String × Bool × Bool) → DB → Except Err DB
  | [], _, tdb => .ok tdb
  | ev :: evs, steps, tdb =>
      match steps.headD (none, false, false) with
      | (none, _, _) => .error .generic
      | (some newID, delFails, creFails) =>
          if delFails then .error .generic
          else
            let tdb1 : DB :=
              { tdb with events :=
                  tdb.events.filter (fun e => e.eventID ≠ ev.eventID) }
            if creFails then .error .generic
            else
              let tdb2 : DB :=
                { tdb1 with events := tdb1.events ++
                    [{ ev with eventID := newID,
                                hashedUserID := some parkedHash }] }
              migrateEvents parkedHash evs steps.tail tdb2

/-- Outcome of one `AssociateUserSecret` call: the returned error value, the
database after the call, and the trace of transaction actions. -/
structure AssocOut where
  result : Except Err Unit
  db : DB
  trace : List Action
  deriving Repr

/-- Tail of `AssociateUserSecret` shared by both branches (accounts.go lines
129–136): commit the transaction, then insert the new `User` row outside of
it via `r.db.Create`. -/
def commitAndInsert (env : Env) (db tdb : DB)
    (hashedUserID encryptedUserSecret : String) (tr : List Action) :
    AssocOut :=
  if env.commitFails then
    ⟨.error .generic, db, tr ++ [.commit]⟩
  else if env.createNewUserFails then
    ⟨.error .generic, tdb, tr ++ [.commit]⟩
  else
    ⟨.ok (),
      { tdb with users := tdb.users ++
          [{ hashedUserID := hashedUserID,
             encryptedUserSecret := encryptedUserSecret }] },
      tr ++ [.commit]⟩

/-- `relationalDatabase.AssociateUserSecret` (accounts.go lines 72–137).
Reads (`r.db.Find`, `r.db.First`, `r.db.Find` on events) go to the base
connection and see the pre-transaction state; writes go to `txn` and become
visible only on commit.  The lookup-failure path at line 86 returns without
touching `txn`, faithfully leaving no rollback in the trace. -/
def associateUserSecret (env : Env) (db : DB)
    (accountID userID encryptedUserSecret : String) : AssocOut :=
  match findAccount db accountID with
  | none => ⟨.error .generic, db, []⟩
  | some account =>
      let hashedUserID := hashUserID account.userSalt userID
      let tr : List Action := [.begin]
      if env.lookupUserFails then
        ⟨.error .generic, db, tr⟩
      else
        match findUser db hashedUserID with
        | none =>
            commitAndInsert env db db hashedUserID encryptedUserSecret tr
        | some user =>
            match env.uuidResult with
            | none => ⟨.error .generic, db, tr ++ [.rollback]⟩
            | some parkedID =>
                let parkedHash := hashUserID account.userSalt parkedID
                let user' := { user with hashedUserID := parkedHash }
                if env.createParkedUserFails then
                  ⟨.error .generic, db, tr ++ [.rollback]⟩
                else
                  let tdb1 : DB := { db with users := db.users ++ [user'] }
                  if env.deleteOldUserFails then
                    ⟨.error .generic, db, tr ++ [.rollback]⟩
                  else
                    let tdb2 : DB := { tdb1 with users := tdb1.users.filter (fun u => u.hashedUserID ≠ hashedUserID) }
                    let affected := db.events.filter
                      (fun e => e.hashedUserID = some hashedUserID)
                    match migrateEvents parkedHash affected env.eventSteps
                        tdb2 with
                    | .error e => ⟨.error e, db, tr ++ [.rollback]⟩
                    | .ok tdb3 =>
                        commitAndInsert env db tdb3 hashedUserID
                          encryptedUserSecret tr

/-- Environment of `CreateAccount`: outcomes of the salt generation, RSA
key-pair generation, private-key encryption and the final `db.Save`. -/
structure CreateEnv where
  saltResult : Option String := some "salt"
  keypairResult : Option (String × String) := some ("pub", "priv")
  encryptResult : Option String := some "enc(priv)"
  saveFails : Bool := false

/-- `relationalDatabase.CreateAccount` (accounts.go lines 139–159): all
fields are computed before the single `db.Save`, and any failure returns
before anything is written. -/
def createAccount (env : CreateEnv) (db : DB) (accountID name : String) :
    Except Err Unit × DB :=
  match env.saltResult with
  | none => (.error .generic, db)
  | some userSalt =>
      match env.keypairResult with
      | none => (.error .generic, db)
      | some (publicKey, _privateKey) =>
          match env.encryptResult with
          | none => (.error .generic, db)
          | some encryptedPrivateKey =>
              if env.saveFails then (.error .generic, db)
              else
                (.ok (),
                  { db with accounts := db.accounts ++
                      [{ accountID := accountID
                         name := name
                         publicKey := publicKey
                         encryptedSecretKey := encryptedPrivateKey
                         userSalt := userSalt }] })

/-- Modelled from Go's `math/rand`: the first value drawn from a source
seeded with `seed` is a fixed deterministic function of the seed alone. -/
def prng (seed : Nat) : Nat :=
  (seed * 6364136223846793005 + 1442695040888963407) % 2 ^ 64

/-- `ulid.Timestamp(t)`: the millisecond Unix timestamp, 48 bits. -/
def ulidTimestamp (nanos : Nat) : Nat :=
  (nanos / 1000000) % 2 ^ 48

/-- `persistence.NewEventID` at a clock reading of `nanos` nanoseconds: a
ULID built from the 48-bit millisecond timestamp and 80 bits of entropy
drawn from `ulid.Monotonic(rand.New(rand.NewSource(t.UnixNano())), 0)`.
The entropy reader is constructed afresh on every call, so its first (and
only) read is a deterministic function of the seed `t.UnixNano()`.  The
value is modelled as the number `timestamp * 2^80 + entropy`; the Crockford
base32 string rendering is order-isomorphic to it. -/
def NewEventID (nanos : Nat) : Nat :=
  ulidTimestamp nanos * 2 ^ 80 + prng nanos % 2 ^ 80

/-- The database with the `userSalt` of the given account replaced: used to
state that `GetAccount` does not depend on (hence cannot expose) the salt. -/
def updateSalt (db : DB) (accountID salt : String) : DB :=
  { db with accounts := db.accounts.map (fun a => if a.accountID = accountID then { a with userSalt := salt } else a) }

/-- The rows of `cur` whose `eventID` differs from every event of `evs`:
what survives the migration loop's deletes. -/
def removeIDs (evs cur : List Event) : List Event :=
  cur.filter (fun e => evs.all (fun ev => e.eventID ≠ ev.eventID))

/-- One event as reinserted by the migration loop: same row re-keyed under
a fresh identifier and the parked hash, all other fields untouched. -/
@[reducible] def migratedOne (parkedHash i : String) (ev : Event) : Event :=
  { ev with eventID := i, hashedUserID := some parkedHash }

/-- The rows reinserted by the migration loop: each affected event paired
with its fresh identifier, re-keyed under the parked hash. -/
def migrated (parkedHash : String) (evs : List Event) (ids : List String) :
    List Event :=
  (evs.zip ids).map (fun p => migratedOne parkedHash p.2 p.1)

/-! ### Sample rows used by concrete witnesses -/

/-- A sample account. -/
def acct0 : Account :=
  { accountID := "acme", name := "Acme", publicKey := "pem"
    encryptedSecretKey := "esk", userSalt := "salt1" }

/-- A sample user-secret row for plaintext identifier `alice`. -/
def user0 : User :=
  { hashedUserID := hashUserID "salt1" "alice", encryptedUserSecret := "S1" }

/-- A sample event owned by `alice`. -/
def ev0 : Event :=
  { eventID := "01A", accountID := "acme"
    hashedUserID := some (hashUserID "salt1" "alice"), payload := "p1" }

/-- A sample anonymous event. -/
def ev1 : Event :=
  { eventID := "01B", accountID := "acme", hashedUserID := none
    payload := "p2" }

/-- A sample database holding the rows above. -/
def db0 : DB := { accounts := [acct0], users := [user0], events := [ev0, ev1] }

/-! ### Theorems -/

/-- C6: if `CreateAccount` returns an error — failed salt randomness, key
generation, encryption, or even the final save — no `Account` row has been
written: the database is unchanged, because all fields are computed before
the single storage write. -/
theorem createAccount_error_writes_nothing (env : CreateEnv) (db : DB)
    (accountID name : String) (e : Err)
    (h : (createAccount env db accountID name).1 = .error e) :
    (createAccount env db accountID name).2 = db := by
  obtain ⟨s, kp, enc, sf⟩ := env
  cases s with
  | none => rfl
  | some salt =>
      cases kp with
      | none => rfl
      | some pair =>
          obtain ⟨pub, priv⟩ := pair
          cases enc with
          | none => rfl
          | some c =>
              cases sf with
              | true => rfl
              | false => simp [createAccount] at h

/-- C6 witness: a failing salt generation at a concrete input leaves the
sample database untouched. -/
theorem createAccount_error_writes_nothing_witness :
    (createAccount { saltResult := none } db0 "new" "New").1 =
        .error .generic ∧
    (createAccount { saltResult := none } db0 "new" "New").2 = db0 :=
  ⟨rfl, createAccount_error_writes_nothing { saltResult := none } db0
    "new" "New" .generic rfl⟩

/-- C3 counterexample: the claim that every (chronologically ordered)
sequence of calls to the event identifier generator yields pairwise
distinct, strictly increasing identifiers is false: two calls observing
the same clock reading (here 5 ns, possible under a coarse clock) return
identical identifiers, because the entropy source is reseeded from
`t.UnixNano()` on every call. -/
theorem newEventID_same_tick_not_distinct :
    ¬ (∀ ts : List Nat, List.Chain' (· ≤ ·) ts →
        List.Pairwise (· ≠ ·) (ts.map NewEventID) ∧
          List.Chain' (· < ·) (ts.map NewEventID)) := by
  intro h
  have h5 := (h [5, 5] (by simp)).1
  simp [List.pairwise_cons] at h5

/-- C3 amended: identifiers from calls whose millisecond timestamps
strictly increase are strictly increasing (the 48-bit timestamp is the
most significant component and the entropy occupies the low 80 bits);
within one millisecond tick no ordering or distinctness is guaranteed. -/
theorem newEventID_strictMono_across_ticks (t₁ t₂ : Nat)
    (h : ulidTimestamp t₁ < ulidTimestamp t₂) :
    NewEventID t₁ < NewEventID t₂ := by
  unfold NewEventID
  have h₁ : prng t₁ % 2 ^ 80 < 2 ^ 80 := Nat.mod_lt _ (by norm_num)
  calc ulidTimestamp t₁ * 2 ^ 80 + prng t₁ % 2 ^ 80
      < ulidTimestamp t₁ * 2 ^ 80 + 2 ^ 80 := by omega
    _ = (ulidTimestamp t₁ + 1) * 2 ^ 80 := by ring
    _ ≤ ulidTimestamp t₂ * 2 ^ 80 := Nat.mul_le_mul_right _ h
    _ ≤ ulidTimestamp t₂ * 2 ^ 80 + prng t₂ % 2 ^ 80 := Nat.le_add_right _ _

/-- C3 amended, witness: two concrete calls one millisecond apart. -/
theorem newEventID_strictMono_across_ticks_witness :
    ulidTimestamp 0 < ulidTimestamp 1000000 ∧
      NewEventID 0 < NewEventID 1000000 :=
  ⟨by decide, newEventID_strictMono_across_ticks 0 1000000 (by decide)⟩

/-- C4 counterexample: `AssociateUserSecret` on an unknown account does not
return the typed `UnknownAccount` error — the lookup error is wrapped into
a generic failure (accounts.go line 75). -/
theorem associate_unknown_account_not_typed :
    ¬ (∀ (env : Env) (db : DB) (aid uid s : String),
        findAccount db aid = none →
        (associateUserSecret env db aid uid s).result =
          Except.error Err.unknownAccount) := by
  intro h
  have hx := h {} ⟨[], [], []⟩ "acme" "alice" "s" rfl
  have hgen : (associateUserSecret {} ⟨[], [], []⟩ "acme" "alice"
      "s").result = .error .generic := rfl
  rw [hgen] at hx
  simp at hx

/-- C4 amended: on an account id with no `Account` row, `GetAccount`
returns the typed `UnknownAccount` error, while `AssociateUserSecret`
returns a generic wrapped lookup failure. -/
theorem unknown_account_error_shapes (db : DB) (aid : String)
    (events : Bool) (since : String) (env : Env) (uid s : String)
    (h : findAccount db aid = none) :
    getAccount db aid events since = .error .unknownAccount ∧
    (associateUserSecret env db aid uid s).result = .error .generic := by
  constructor
  · unfold getAccount
    rw [h]
  · unfold associateUserSecret
    rw [h]

/-- C4 amended, witness: the empty database knows no account `acme`. -/
theorem unknown_account_error_shapes_witness :
    findAccount ⟨[], [], []⟩ "acme" = none ∧
    getAccount ⟨[], [], []⟩ "acme" true "" = .error .unknownAccount ∧
    (associateUserSecret {} ⟨[], [], []⟩ "acme" "alice" "s").result =
      .error .generic :=
  ⟨rfl,
    (unknown_account_error_shapes ⟨[], [], []⟩ "acme" true "" {} "alice"
      "s" rfl).1,
    (unknown_account_error_shapes ⟨[], [], []⟩ "acme" true "" {} "alice"
      "s" rfl).2⟩

/-- C2: the code slip at accounts.go line 86 — when the user lookup inside
the open transaction fails with a generic storage error, the function
returns the error without ever attempting `txn.Rollback()`: the trace ends
at `Begin` and contains no `Rollback`, contradicting the stated policy
that rollback is always attempted on any error inside a transaction. -/
theorem associate_lookup_failure_skips_rollback :
    (associateUserSecret { lookupUserFails := true } db0 "acme" "alice"
        "S2").result = .error .generic ∧
    (associateUserSecret { lookupUserFails := true } db0 "acme" "alice"
        "S2").trace = [.begin] ∧
    Action.rollback ∉ (associateUserSecret { lookupUserFails := true } db0
        "acme" "alice" "S2").trace := by
  refine ⟨rfl, rfl, ?_⟩
  intro hmem
  have : (associateUserSecret { lookupUserFails := true } db0 "acme"
      "alice" "S2").trace = [.begin] := rfl
  rw [this] at hmem
  simp at hmem

/-- Replacing an account's salt does not change any other field. -/
lemma salted_fields (aid s : String) (a : Account) :
    (if a.accountID = aid then { a with userSalt := s } else a).accountID =
        a.accountID ∧
    (if a.accountID = aid then { a with userSalt := s } else a).publicKey =
        a.publicKey ∧
    (if a.accountID = aid then { a with userSalt := s }
        else a).encryptedSecretKey = a.encryptedSecretKey := by
  split <;> exact ⟨rfl, rfl, rfl⟩

/-- Account lookup commutes with replacing a salt. -/
lemma find?_map_salt (l : List Account) (aid s aid' : String) :
    (l.map (fun a => if a.accountID = aid then { a with userSalt := s }
        else a)).find? (fun a => a.accountID = aid') =
      (l.find? (fun a => a.accountID = aid')).map
        (fun a => if a.accountID = aid then { a with userSalt := s }
          else a) := by
  induction l with
  | nil => rfl
  | cons a l ih =>
      have hacc := (salted_fields aid s a).1
      simp only [List.map_cons, List.find?]
      rw [hacc]
      by_cases h : a.accountID = aid'
      · simp [h]
      · simp [h, ih]

/-- `findAccount` after a salt update returns the salted row. -/
lemma findAccount_updateSalt (db : DB) (aid s aid' : String) :
    findAccount (updateSalt db aid s) aid' =
      (findAccount db aid').map
        (fun a => if a.accountID = aid then { a with userSalt := s }
          else a) :=
  find?_map_salt db.accounts aid s aid'

/-- The `GetAccount` result-building loop reads only the `users` and
`events` tables, which a salt update leaves untouched. -/
lemma buildMapsGo_updateSalt (db : DB) (aid s : String) :
    ∀ (evts : List Event) (em : List (String × List EventResult))
      (sm : List (String × String)),
      buildMapsGo (updateSalt db aid s) evts em sm =
        buildMapsGo db evts em sm := by
  intro evts
  induction evts with
  | nil => intro em sm; rfl
  | cons evt rest ih =>
      intro em sm
      simp only [buildMapsGo]
      exact ih _ _

/-- C9: the `userSalt` of an account influences only derived hashes and is
never exposed by `GetAccount`: the result of `GetAccount` is unchanged
under an arbitrary replacement of any account's salt, for every account
queried and every combination of arguments. -/
theorem getAccount_salt_noninterference (db : DB) (aid s aid' : String)
    (events : Bool) (since : String) :
    getAccount (updateSalt db aid s) aid' events since =
      getAccount db aid' events since := by
  unfold getAccount
  rw [findAccount_updateSalt]
  cases h : findAccount db aid' with
  | none => rfl
  | some a =>
      obtain ⟨h1, h2, h3⟩ := salted_fields aid s a
      simp only [Option.map_some']
      rw [h1, h2, h3]
      have hle : loadedEvents (updateSalt db aid s) aid' events since =
          loadedEvents db aid' events since := rfl
      rw [hle, buildMapsGo_updateSalt]

/-- C10: `GetAccount` populates exactly one of the two key fields: with
events requested the result carries the stored encrypted secret key and a
nil public key; without events it carries the wrapped public key and an
empty encrypted secret key. -/
theorem getAccount_key_exclusivity (db : DB) (aid : String)
    (events : Bool) (since : String) (account : Account)
    (res : AccountResult)
    (hacct : findAccount db aid = some account)
    (h : getAccount db aid events since = .ok res) :
    (events = true → res.encryptedSecretKey = account.encryptedSecretKey ∧
      res.publicKey = none) ∧
    (events = false → res.publicKey = wrapPublicKey account.publicKey ∧
      res.encryptedSecretKey = "") := by
  unfold getAccount at h
  split at h
  · simp_all
  · rename_i a heq
    rw [hacct] at heq
    injection heq with heq
    subst heq
    split at h
    · exact absurd h (by simp)
    · rename_i key hw'
      rw [hw']
      cases events with
      | true =>
          simp only [if_pos rfl, Except.ok.injEq] at h
          subst h
          exact ⟨fun _ => ⟨rfl, rfl⟩, fun hf => Bool.noConfusion hf⟩
      | false =>
          simp only [Bool.false_eq_true, if_false, Except.ok.injEq] at h
          subst h
          exact ⟨fun ht => Bool.noConfusion ht, fun _ => ⟨rfl, rfl⟩⟩

/-- The concrete result of `getAccount db0 "acme" true ""`. -/
def res0 : AccountResult :=
  { accountID := "acme", publicKey := none, encryptedSecretKey := "esk"
    events := some [("acme", [mkEventResult ev0, mkEventResult ev1])]
    userSecrets := some [(hashUserID "salt1" "alice", "S1")] }

/-- C10 witness: the sample database on the events path. -/
theorem getAccount_key_exclusivity_witness :
    findAccount db0 "acme" = some acct0 ∧
    getAccount db0 "acme" true "" = .ok res0 ∧
    (res0.encryptedSecretKey = acct0.encryptedSecretKey ∧
      res0.publicKey = none) := by
  refine ⟨rfl, rfl, ?_⟩
  exact (getAccount_key_exclusivity db0 "acme" true "" acct0 res0 rfl
    rfl).1 rfl

/-- The first component of the result-building loop is a fold of
`appendGrouped` over the loaded events. -/
lemma buildMapsGo_fst (db : DB) :
    ∀ (evts : List Event) (em : List (String × List EventResult))
      (sm : List (String × String)),
      (buildMapsGo db evts em sm).1 =
        evts.foldl
          (fun m evt => appendGrouped m evt.accountID (mkEventResult evt))
          em := by
  intro evts
  induction evts with
  | nil => intro em sm; rfl
  | cons evt rest ih =>
      intro em sm
      simp only [buildMapsGo, List.foldl_cons]
      exact ih _ _

/-- Folding `appendGrouped` over events that all carry the same account id
extends the single bucket of that account. -/
lemma foldl_appendGrouped_const (aid : String) :
    ∀ (evts : List Event) (acc : List EventResult),
      (∀ e ∈ evts, e.accountID = aid) →
      evts.foldl
          (fun m evt => appendGrouped m evt.accountID (mkEventResult evt))
          [(aid, acc)] =
        [(aid, acc ++ evts.map mkEventResult)] := by
  intro evts
  induction evts with
  | nil => intro acc _; simp
  | cons e rest ih =>
      intro acc hall
      have he : e.accountID = aid := hall e (by simp)
      simp only [List.foldl_cons, he, appendGrouped, eq_self_iff_true,
        if_true]
      rw [ih (acc ++ [mkEventResult e])
        (fun x hx => hall x (by simp [hx]))]
      simp

/-- Folding `appendGrouped` from the empty map over same-account events
yields nothing or exactly one bucket. -/
lemma foldl_appendGrouped_nil (aid : String) (evts : List Event)
    (hall : ∀ e ∈ evts, e.accountID = aid) :
    evts.foldl
        (fun m evt => appendGrouped m evt.accountID (mkEventResult evt))
        [] =
      if evts = [] then [] else [(aid, evts.map mkEventResult)] := by
  cases evts with
  | nil => rfl
  | cons e rest =>
      have he : e.accountID = aid := hall e (by simp)
      simp only [List.foldl_cons, appendGrouped, he]
      rw [foldl_appendGrouped_const aid rest [mkEventResult e]
        (fun x hx => hall x (by simp [hx]))]
      simp

/-- Every event loaded by the `Preload` of `GetAccount` belongs to the
queried account. -/
lemma loadedEvents_accountID (db : DB) (aid : String) (events : Bool)
    (since : String) :
    ∀ e ∈ loadedEvents db aid events since, e.accountID = aid := by
  intro e he
  unfold loadedEvents at he
  split at he
  · split at he
    · have := (List.mem_filter.mp he).2
      simp at this
      exact this.1
    · have := (List.mem_filter.mp he).2
      simp at this
      exact this
  · cases he

/-- C7: with events requested, `GetAccount` returns exactly the account's
events whose `eventID` is strictly greater than a non-empty cursor (the
bound is exclusive), and all of the account's events when the cursor is
empty; the result map holds them under the account's key, or is absent
when no event matches. -/
theorem getAccount_since_exclusive (db : DB) (aid since : String)
    (res : AccountResult)
    (h : getAccount db aid true since = .ok res) :
    (since ≠ "" →
      res.events =
        if db.events.filter
            (fun e => e.accountID = aid ∧ eventIdLt since e.eventID = true) = [] then none
        else some [(aid, (db.events.filter
          (fun e => e.accountID = aid ∧ eventIdLt since e.eventID = true)).map
            mkEventResult)]) ∧
    (since = "" →
      res.events =
        if db.events.filter (fun e => e.accountID = aid) = [] then none
        else some [(aid, (db.events.filter
          (fun e => e.accountID = aid)).map mkEventResult)]) := by
  have hcentral : res.events =
      if loadedEvents db aid true since = [] then none
      else some [(aid, (loadedEvents db aid true since).map
        mkEventResult)] := by
    unfold getAccount at h
    split at h
    · exact absurd h (by simp)
    · rename_i a heq
      split at h
      · exact absurd h (by simp)
      · rename_i key hw
        simp only [Except.ok.injEq] at h
        subst h
        have hem := buildMapsGo_fst db (loadedEvents db aid true since)
          [] []
        have hold := foldl_appendGrouped_nil aid
          (loadedEvents db aid true since)
          (loadedEvents_accountID db aid true since)
        rw [hold] at hem
        by_cases hnil : loadedEvents db aid true since = []
        · simp only [hnil, if_pos rfl] at hem ⊢
          simp [hem]
        · simp only [hnil, if_neg hnil] at hem ⊢
          simp [hem]
  constructor
  · intro hs
    have hL : loadedEvents db aid true since =
        db.events.filter (fun e => e.accountID = aid ∧ eventIdLt since e.eventID = true)
        := by
      simp [loadedEvents, hs]
    rw [hcentral, hL]
  · intro hs
    have hL : loadedEvents db aid true since =
        db.events.filter (fun e => e.accountID = aid) := by
      simp [loadedEvents, hs]
    rw [hcentral, hL]

/-- C7 witness: the sample database with cursor `01A` returns only the
later event, and with the empty cursor returns both. -/
theorem getAccount_since_exclusive_witness :
    getAccount db0 "acme" true "01A" =
      .ok { accountID := "acme", publicKey := none
            encryptedSecretKey := "esk"
            events := some [("acme", [mkEventResult ev1])]
            userSecrets := none } ∧
    ({ accountID := "acme", publicKey := none
       encryptedSecretKey := "esk"
       events := some [("acme", [mkEventResult ev1])]
       userSecrets := none } : AccountResult).events =
      if db0.events.filter
          (fun e => e.accountID = "acme" ∧ eventIdLt "01A" e.eventID = true) = [] then
        none
      else some [("acme", (db0.events.filter
        (fun e => e.accountID = "acme" ∧ eventIdLt "01A" e.eventID = true)).map
          mkEventResult)] := by
  refine ⟨rfl, ?_⟩
  exact (getAccount_since_exclusive db0 "acme" "01A" _ rfl).1
    (by decide)

/-- The migration loop, run with fresh, pairwise-distinct identifiers and
no injected failures, succeeds and rewrites the events table to: the rows
not deleted by any iteration, followed by the migrated copies under the
parked hash. -/
lemma migrateEvents_ok (ph : String) :
    ∀ (evs : List Event) (ids : List String) (acc : List Account)
      (us : List User) (cur : List Event),
      ids.length = evs.length →
      ids.Nodup →
      (∀ i ∈ ids, ∀ e ∈ cur, i ≠ e.eventID) →
      (∀ i ∈ ids, ∀ ev ∈ evs, i ≠ ev.eventID) →
      migrateEvents ph evs (ids.map (fun i => (some i, false, false)))
          ⟨acc, us, cur⟩ =
        .ok ⟨acc, us, removeIDs evs cur ++ migrated ph evs ids⟩ := by
  intro evs
  induction evs with
  | nil =>
      intro ids acc us cur hlen _ _ _
      have hids : ids = [] := List.length_eq_zero.mp hlen
      subst hids
      simp [migrateEvents, removeIDs, migrated]
  | cons ev evs ih =>
      intro ids acc us cur hlen hnodup hfreshcur hfreshevs
      cases ids with
      | nil => exact absurd hlen (by simp)
      | cons i ids' =>
          have hlen' : ids'.length = evs.length := by
            simpa using hlen
          have hnd := List.nodup_cons.mp hnodup
          have hm : (migratedOne ph i ev).eventID = i := rfl
          simp only [List.map_cons, migrateEvents, List.headD_cons,
            List.tail_cons, Bool.false_eq_true, if_false]
          rw [ih ids' acc us
            (cur.filter (fun e => e.eventID ≠ ev.eventID) ++
              [migratedOne ph i ev])
            hlen' hnd.2 ?hcur ?hevs]
          case hcur =>
            intro j hj e he
            rcases List.mem_append.mp he with he' | he'
            · exact hfreshcur j (List.mem_cons_of_mem _ hj) e
                (List.mem_filter.mp he').1
            · have he2 : e = migratedOne ph i ev := by simpa using he'
              subst he2
              rw [hm]
              intro hji
              exact hnd.1 (hji ▸ hj)
          case hevs =>
            intro j hj x hx
            exact hfreshevs j (List.mem_cons_of_mem _ hj) x
              (List.mem_cons_of_mem _ hx)
          congr 1
          have hpred : ∀ x ∈ evs,
              decide ((migratedOne ph i ev).eventID ≠ x.eventID) = true := by
            intro x hx
            rw [hm]
            exact decide_eq_true
              (hfreshevs i (List.mem_cons_self _ _) x
                (List.mem_cons_of_mem _ hx))
          have step1 : removeIDs evs
              (cur.filter (fun e => e.eventID ≠ ev.eventID) ++
                [migratedOne ph i ev]) =
              removeIDs evs
                (cur.filter (fun e => e.eventID ≠ ev.eventID)) ++
                [migratedOne ph i ev] := by
            unfold removeIDs
            rw [List.filter_append]
            congr 1
            rw [List.filter_cons]
            simp only [List.all_eq_true]
            rw [if_pos hpred]
            rfl
          have step2 : removeIDs evs
              (cur.filter (fun e => e.eventID ≠ ev.eventID)) =
              removeIDs (ev :: evs) cur := by
            unfold removeIDs
            rw [List.filter_filter]
            apply List.filter_congr
            intro x _
            show (evs.all (fun y => decide (x.eventID ≠ y.eventID))
                && decide (x.eventID ≠ ev.eventID)) =
              (ev :: evs).all (fun y => decide (x.eventID ≠ y.eventID))
            rw [List.all_cons, Bool.and_comm]
          rw [step1, step2, List.append_assoc]
          rfl

/-- The full effect of a successful `AssociateUserSecret` call when a stale
`UserSecret` row exists for the computed hash: the transaction commits, the
stale row is re-pointed to the parked hash, every event under the original
hash is deleted and reinserted under the parked hash with a fresh id, and
the new secret row is inserted under the original hash. -/
lemma assoc_rotation_state
    (env : Env) (db : DB) (accountID userID secret : String)
    (account : Account) (user : User) (pid : String) (ids : List String)
    (hacct : findAccount db accountID = some account)
    (huser : findUser db (hashUserID account.userSalt userID) = some user)
    (hlook : env.lookupUserFails = false)
    (huuid : env.uuidResult = some pid)
    (hcp : env.createParkedUserFails = false)
    (hdo : env.deleteOldUserFails = false)
    (hcm : env.commitFails = false)
    (hcn : env.createNewUserFails = false)
    (hsteps : env.eventSteps = ids.map (fun i => (some i, false, false)))
    (hlen : ids.length = (db.events.filter (fun e =>
        e.hashedUserID = some (hashUserID account.userSalt userID))).length)
    (hnodup : ids.Nodup)
    (hfresh : ∀ i ∈ ids, ∀ e ∈ db.events, i ≠ e.eventID) :
    associateUserSecret env db accountID userID secret =
      ⟨.ok (),
        ⟨db.accounts,
          ((db.users ++
              [{ user with
                  hashedUserID := hashUserID account.userSalt pid }]).filter
            (fun u =>
              u.hashedUserID ≠ hashUserID account.userSalt userID)) ++
            [{ hashedUserID := hashUserID account.userSalt userID,
               encryptedUserSecret := secret }],
          removeIDs (db.events.filter (fun e =>
              e.hashedUserID = some (hashUserID account.userSalt userID)))
              db.events ++
            migrated (hashUserID account.userSalt pid)
              (db.events.filter (fun e =>
                e.hashedUserID = some (hashUserID account.userSalt userID)))
              ids⟩,
        [.begin, .commit]⟩ := by
  have hfresh2 : ∀ i ∈ ids, ∀ ev ∈ db.events.filter (fun e =>
      e.hashedUserID = some (hashUserID account.userSalt userID)),
      i ≠ ev.eventID :=
    fun i hi ev hev => hfresh i hi ev (List.mem_filter.mp hev).1
  simp only [associateUserSecret, hacct, hlook, huser, huuid, hcp, hdo,
    hsteps, Bool.false_eq_true, if_false]
  have hmig := migrateEvents_ok (hashUserID account.userSalt pid)
    (db.events.filter (fun e =>
      e.hashedUserID = some (hashUserID account.userSalt userID)))
    ids db.accounts
    ((db.users ++
        [{ user with
            hashedUserID := hashUserID account.userSalt pid }]).filter
      (fun u => u.hashedUserID ≠ hashUserID account.userSalt userID))
    db.events hlen hnodup hfresh hfresh2
  rw [hmig]
  simp only [commitAndInsert, hcm, hcn, Bool.false_eq_true, if_false]
  rfl

/-- C1: when `AssociateUserSecret` finds an existing `UserSecret` row for
the computed hash and every collaborator call succeeds, the call returns
without error; afterwards the existing row exists re-pointed to the freshly
generated parked hash, a new `UserSecret` row with the caller-supplied
secret exists under the original hash, the events table equals the
untouched rows plus the migrated copies (each affected event reinserted
under the parked hash with its fresh id), and no event remains bound to
the original hash. -/
theorem associate_existing_secret_rotates
    (env : Env) (db : DB) (accountID userID secret : String)
    (account : Account) (user : User) (pid : String) (ids : List String)
    (hacct : findAccount db accountID = some account)
    (huser : findUser db (hashUserID account.userSalt userID) = some user)
    (hlook : env.lookupUserFails = false)
    (huuid : env.uuidResult = some pid)
    (hcp : env.createParkedUserFails = false)
    (hdo : env.deleteOldUserFails = false)
    (hcm : env.commitFails = false)
    (hcn : env.createNewUserFails = false)
    (hsteps : env.eventSteps = ids.map (fun i => (some i, false, false)))
    (hlen : ids.length = (db.events.filter (fun e =>
        e.hashedUserID = some (hashUserID account.userSalt userID))).length)
    (hnodup : ids.Nodup)
    (hfresh : ∀ i ∈ ids, ∀ e ∈ db.events, i ≠ e.eventID)
    (hne : hashUserID account.userSalt pid ≠
      hashUserID account.userSalt userID) :
    (associateUserSecret env db accountID userID secret).result = .ok () ∧
    ({ user with hashedUserID := hashUserID account.userSalt pid }
        : User) ∈
      (associateUserSecret env db accountID userID secret).db.users ∧
    ({ hashedUserID := hashUserID account.userSalt userID,
       encryptedUserSecret := secret } : User) ∈
      (associateUserSecret env db accountID userID secret).db.users ∧
    (associateUserSecret env db accountID userID secret).db.users.filter
        (fun u => u.hashedUserID = hashUserID account.userSalt userID) =
      [{ hashedUserID := hashUserID account.userSalt userID,
         encryptedUserSecret := secret }] ∧
    (associateUserSecret env db accountID userID secret).db.events =
      removeIDs (db.events.filter (fun e =>
          e.hashedUserID = some (hashUserID account.userSalt userID)))
          db.events ++
        migrated (hashUserID account.userSalt pid)
          (db.events.filter (fun e =>
            e.hashedUserID = some (hashUserID account.userSalt userID)))
          ids ∧
    (∀ e ∈ (associateUserSecret env db accountID userID secret).db.events,
      e.hashedUserID ≠ some (hashUserID account.userSalt userID)) := by
  rw [assoc_rotation_state env db accountID userID secret account user pid
    ids hacct huser hlook huuid hcp hdo hcm hcn hsteps hlen hnodup hfresh]
  refine ⟨rfl, ?_, ?_, ?_, rfl, ?_⟩
  · apply List.mem_append_left
    apply List.mem_filter.mpr
    refine ⟨List.mem_append_right _ (by simp), ?_⟩
    exact decide_eq_true hne
  · exact List.mem_append_right _ (by simp)
  · rw [List.filter_append]
    have h1 : ((db.users ++
        [{ user with
            hashedUserID := hashUserID account.userSalt pid }]).filter
          (fun u : User =>
            u.hashedUserID ≠ hashUserID account.userSalt userID)).filter
          (fun u : User =>
            u.hashedUserID = hashUserID account.userSalt userID) = [] := by
      rw [List.filter_eq_nil_iff]
      intro u hu'
      have hne' := (List.mem_filter.mp hu').2
      simp only [decide_eq_true_eq] at hne' ⊢
      exact hne'
    rw [h1]
    simp
  · intro e he
    rcases List.mem_append.mp he with he1 | he1
    · unfold removeIDs at he1
      obtain ⟨hedb, hall⟩ := List.mem_filter.mp he1
      intro hex
      have hmem : e ∈ db.events.filter (fun e =>
          e.hashedUserID = some (hashUserID account.userSalt userID)) :=
        List.mem_filter.mpr ⟨hedb, decide_eq_true hex⟩
      have := List.all_eq_true.mp hall e hmem
      simp at this
    · unfold migrated at he1
      obtain ⟨p, _, hpe⟩ := List.mem_map.mp he1
      intro hex
      rw [← hpe] at hex
      have : hashUserID account.userSalt pid =
          hashUserID account.userSalt userID := by
        simpa [migratedOne] using hex
      exact hne this

/-- C1 witness: the sample database, rotating `alice` to a new secret. -/
theorem associate_existing_secret_rotates_witness :
    (associateUserSecret { eventSteps := [(some "01C", false, false)] }
        db0 "acme" "alice" "S2").result = .ok () ∧
    (∀ e ∈ (associateUserSecret
        { eventSteps := [(some "01C", false, false)] }
        db0 "acme" "alice" "S2").db.events,
      e.hashedUserID ≠ some (hashUserID "salt1" "alice")) := by
  have h := associate_existing_secret_rotates
    { eventSteps := [(some "01C", false, false)] } db0 "acme" "alice" "S2"
    acct0 user0 "parked-uuid" ["01C"] rfl rfl rfl rfl rfl rfl rfl rfl rfl
    (by decide) (by decide) (by decide) (by decide)
  exact ⟨h.1, h.2.2.2.2.2⟩

/-- C5: every event migrated by the rotation branch of
`AssociateUserSecret` changes only its `eventID` (to the freshly generated
identifier) and its `hashedUserID` (to the parked hash): the reinserted
row is the old row under the record update that touches exactly those two
fields, and in particular its `payload` and `accountID` are identical. -/
theorem associate_migration_preserves_fields
    (env : Env) (db : DB) (accountID userID secret : String)
    (account : Account) (user : User) (pid : String) (ids : List String)
    (hacct : findAccount db accountID = some account)
    (huser : findUser db (hashUserID account.userSalt userID) = some user)
    (hlook : env.lookupUserFails = false)
    (huuid : env.uuidResult = some pid)
    (hcp : env.createParkedUserFails = false)
    (hdo : env.deleteOldUserFails = false)
    (hcm : env.commitFails = false)
    (hcn : env.createNewUserFails = false)
    (hsteps : env.eventSteps = ids.map (fun i => (some i, false, false)))
    (hlen : ids.length = (db.events.filter (fun e =>
        e.hashedUserID = some (hashUserID account.userSalt userID))).length)
    (hnodup : ids.Nodup)
    (hfresh : ∀ i ∈ ids, ∀ e ∈ db.events, i ≠ e.eventID) :
    ∀ p ∈ (db.events.filter (fun e =>
        e.hashedUserID = some (hashUserID account.userSalt userID))).zip
        ids,
      migratedOne (hashUserID account.userSalt pid) p.2 p.1 ∈
        (associateUserSecret env db accountID userID secret).db.events ∧
      (migratedOne (hashUserID account.userSalt pid) p.2 p.1).payload =
        p.1.payload ∧
      (migratedOne (hashUserID account.userSalt pid) p.2 p.1).accountID =
        p.1.accountID := by
  rw [assoc_rotation_state env db accountID userID secret account user pid
    ids hacct huser hlook huuid hcp hdo hcm hcn hsteps hlen hnodup hfresh]
  intro p hp
  refine ⟨?_, rfl, rfl⟩
  apply List.mem_append_right
  exact List.mem_map_of_mem (fun p => migratedOne _ p.2 p.1) hp

/-- C5 witness: the sample migration of `alice`'s single event. -/
theorem associate_migration_preserves_fields_witness :
    (db0.events.filter (fun e =>
        e.hashedUserID = some (hashUserID "salt1" "alice"))).zip ["01C"] =
      [(ev0, "01C")] ∧
    migratedOne (hashUserID "salt1" "parked-uuid") "01C" ev0 ∈
      (associateUserSecret { eventSteps := [(some "01C", false, false)] }
        db0 "acme" "alice" "S2").db.events ∧
    (migratedOne (hashUserID "salt1" "parked-uuid") "01C" ev0).payload =
      ev0.payload := by
  have h := associate_migration_preserves_fields
    { eventSteps := [(some "01C", false, false)] } db0 "acme" "alice" "S2"
    acct0 user0 "parked-uuid" ["01C"] rfl rfl rfl rfl rfl rfl rfl rfl rfl
    (by decide) (by decide) (by decide) (ev0, "01C") (by decide)
  exact ⟨rfl, h.1, h.2.1⟩

/-- C8: when `AssociateUserSecret` finds no existing `UserSecret` row for
the computed hash and the commit and insert succeed, the call returns
without error, the database gains exactly the one new `UserSecret` row
bound to the hash with the caller-supplied secret, and the events table is
untouched. -/
theorem associate_no_existing_secret_inserts
    (env : Env) (db : DB) (accountID userID secret : String)
    (account : Account)
    (hacct : findAccount db accountID = some account)
    (huser : findUser db (hashUserID account.userSalt userID) = none)
    (hlook : env.lookupUserFails = false)
    (hcm : env.commitFails = false)
    (hcn : env.createNewUserFails = false) :
    (associateUserSecret env db accountID userID secret).result = .ok () ∧
    (associateUserSecret env db accountID userID secret).db =
      { db with users := db.users ++
          [{ hashedUserID := hashUserID account.userSalt userID,
             encryptedUserSecret := secret }] } ∧
    (associateUserSecret env db accountID userID secret).db.events =
      db.events ∧
    (associateUserSecret env db accountID userID secret).db.users.filter
        (fun u => u.hashedUserID = hashUserID account.userSalt userID) =
      [{ hashedUserID := hashUserID account.userSalt userID,
         encryptedUserSecret := secret }] := by
  have hrun : associateUserSecret env db accountID userID secret =
      ⟨.ok (),
        { db with users := db.users ++
            [{ hashedUserID := hashUserID account.userSalt userID,
               encryptedUserSecret := secret }] },
        [.begin, .commit]⟩ := by
    simp only [associateUserSecret, hacct, hlook, huser, commitAndInsert,
      hcm, hcn, Bool.false_eq_true, if_false]
    rfl
  rw [hrun]
  refine ⟨rfl, rfl, rfl, ?_⟩
  show (db.users ++ [_]).filter _ = _
  rw [List.filter_append]
  have hnone : db.users.filter (fun u =>
      u.hashedUserID = hashUserID account.userSalt userID) = [] := by
    rw [List.filter_eq_nil_iff]
    intro u hu
    have := List.find?_eq_none.mp huser u hu
    simpa using this
  rw [hnone]
  simp

/-- C8 witness: associating a secret for `bob`, unknown in the sample
database. -/
theorem associate_no_existing_secret_inserts_witness :
    findUser db0 (hashUserID "salt1" "bob") = none ∧
    (associateUserSecret {} db0 "acme" "bob" "S3").result = .ok () ∧
    (associateUserSecret {} db0 "acme" "bob" "S3").db.events =
      db0.events := by
  have h := associate_no_existing_secret_inserts {} db0 "acme" "bob" "S3"
    acct0 rfl rfl rfl rfl rfl
  exact ⟨rfl, h.1, h.2.2.1⟩

end Offen
